import Mathlib

/-!
Verification development for the postgres-explorer background-job subsystem
and metadata cache (src/handlers/export.rs, src/handlers/console.rs,
src/handlers/schemas.rs, src/handlers/mod.rs).

The shared HashMap registries are modelled as association lists with
first-match lookup; HashMap.insert is modelled by consing (the new binding
shadows any older one, so lookup behaves exactly like the map).  SystemTime
and Instant are modelled as natural numbers (seconds).  Tokio tasks are
modelled as explicit state-passing functions and, for the cache, as a
small-step transition relation whose atomic steps are exactly the sections
of code executed under the cache write lock.
-/

namespace PgExplorer

/-! ### Association-list maps (model of std HashMap) -/

def alookup {α β : Type} [DecidableEq α] : List (α × β) → α → Option β
  | [], _ => none
  | (k, v) :: rest, key => if k = key then some v else alookup rest key

def aset {α β : Type} [DecidableEq α] : List (α × β) → α → β → List (α × β)
  | [], _, _ => []
  | (k, v) :: rest, key, v' =>
    if k = key then (k, v') :: rest else (k, v) :: aset rest key v'

/-- HashMap.insert: the new binding shadows any previous one. -/
def ainsert {α β : Type} [DecidableEq α] (m : List (α × β)) (key : α) (v : β) :
    List (α × β) :=
  (key, v) :: m

theorem alookup_aset_self {α β : Type} [DecidableEq α]
    (m : List (α × β)) (k : α) (v : β) :
    alookup (aset m k v) k = (alookup m k).map (fun _ => v) := by
  induction m with
  | nil => simp [aset, alookup]
  | cons p rest ih =>
    obtain ⟨k', v'⟩ := p
    by_cases h : k' = k
    · subst h
      simp [aset, alookup]
    · simp [aset, alookup, h, ih]

theorem alookup_aset_ne {α β : Type} [DecidableEq α]
    (m : List (α × β)) (k k' : α) (v : β) (h : k' ≠ k) :
    alookup (aset m k v) k' = alookup m k' := by
  induction m with
  | nil => simp [aset]
  | cons p rest ih =>
    obtain ⟨k0, v0⟩ := p
    by_cases h0 : k0 = k
    · subst h0
      have : k0 ≠ k' := fun hc => h (hc ▸ rfl)
      simp [aset, alookup, this]
    · simp only [aset, if_neg h0, alookup]
      by_cases h1 : k0 = k'
      · simp [h1]
      · simp [h1, ih]

theorem alookup_ainsert_self {α β : Type} [DecidableEq α]
    (m : List (α × β)) (k : α) (v : β) :
    alookup (ainsert m k v) k = some v := by
  simp [ainsert, alookup]

theorem alookup_ainsert_ne {α β : Type} [DecidableEq α]
    (m : List (α × β)) (k k' : α) (v : β) (h : k' ≠ k) :
    alookup (ainsert m k v) k' = alookup m k' := by
  have : k ≠ k' := fun hc => h (hc ▸ rfl)
  simp [ainsert, alookup, this]

/-! ### Job registry (src/handlers/mod.rs, export.rs, console.rs) -/

/-- JobStatus enum from src/handlers/mod.rs. -/
inductive JobStatus where
  | Running
  | Completed
  | Failed
deriving DecidableEq, Repr

/-- ExportJob record from src/handlers/mod.rs.  The VecDeque of log lines is
modelled as a List with the front (oldest line) at the head. -/
structure ExportJob where
  job_id : String
  status : JobStatus
  logs : List String
  started_at : Nat
  completed_at : Option Nat
  file_path : Option String
  error : Option String
deriving DecidableEq, Repr

/-- MAX_LOG_LINES from src/handlers/export.rs (also used by console.rs). -/
def MAX_LOG_LINES : Nat := 10000

abbrev JobsMap := List (String × ExportJob)

/-- append_log from src/handlers/export.rs lines 805-813 (identical in
console.rs lines 324-332): push_back the line, then pop_front once if the
buffer now exceeds MAX_LOG_LINES.  Unknown job ids are silently ignored. -/
def append_log (jobs : JobsMap) (job_id line : String) : JobsMap :=
  match alookup jobs job_id with
  | none => jobs
  | some job =>
    let pushed := job.logs ++ [line]
    let bounded := if MAX_LOG_LINES < pushed.length then pushed.drop 1 else pushed
    aset jobs job_id { job with logs := bounded }

/-- complete_job from src/handlers/export.rs lines 832-840 (identical in
console.rs lines 334-346): if the job id exists, unconditionally overwrite
status (Failed iff an error is given, else Completed), completed_at,
file_path and error.  Unknown job ids are silently ignored. -/
def complete_job (jobs : JobsMap) (job_id : String)
    (file_path error : Option String) (now : Nat) : JobsMap :=
  match alookup jobs job_id with
  | none => jobs
  | some job =>
    aset jobs job_id
      { job with
        status := if error.isSome then JobStatus.Failed else JobStatus.Completed,
        completed_at := some now,
        file_path := file_path,
        error := error }

/-- Debug formatting of JobStatus, as used by get_job_status. -/
def statusDebug : JobStatus → String
  | JobStatus.Running => "Running"
  | JobStatus.Completed => "Completed"
  | JobStatus.Failed => "Failed"

structure JobStatusResponse where
  status : String
  started_at : Nat
  completed_at : Option Nat
  file_path : Option String
  error : Option String
deriving DecidableEq, Repr

/-- get_job_status from src/handlers/export.rs lines 842-857: an unknown id
yields a 404 "Job not found" error response, a known id a snapshot. -/
def get_job_status (jobs : JobsMap) (job_id : String) :
    Except (Nat × String) JobStatusResponse :=
  match alookup jobs job_id with
  | none => Except.error (404, "Job not found")
  | some job =>
    Except.ok
      ⟨statusDebug job.status, job.started_at, job.completed_at,
        job.file_path, job.error⟩

/-- A freshly created job record, as built in start_export, start_import and
execute_query: status Running, empty logs, no terminal fields. -/
def newJob (job_id : String) (now : Nat) : ExportJob :=
  ⟨job_id, JobStatus.Running, [], now, none, none, none⟩

/-- The registry-mutating operations of the job subsystem. -/
inductive RegOp where
  | create (job_id : String) (now : Nat)
  | append (job_id line : String)
  | complete (job_id : String) (file_path error : Option String) (now : Nat)

def applyOp (jobs : JobsMap) : RegOp → JobsMap
  | RegOp.create id now => ainsert jobs id (newJob id now)
  | RegOp.append id line => append_log jobs id line
  | RegOp.complete id fp err now => complete_job jobs id fp err now

/-- The registry produced by a sequence of operations, starting empty. -/
def runOps (ops : List RegOp) : JobsMap := ops.foldl applyOp []

/-! ### Substring and pattern matching (model of str::contains and the
regex crate on the fixed patterns of is_non_critical_error) -/

/-- pat is a prefix of s (on character lists). -/
def leadsWith : List Char → List Char → Bool
  | _, [] => true
  | [], _ :: _ => false
  | a :: s, b :: p => a == b && leadsWith s p

/-- s contains pat as a contiguous substring (model of str::contains). -/
def hasSub : List Char → List Char → Bool
  | [], pat => pat.isEmpty
  | a :: rest, pat => leadsWith (a :: rest) pat || hasSub rest pat

def strContains (s pat : String) : Bool := hasSub s.data pat.data

/-- The suffix of s after the leftmost occurrence of pat, none if pat does
not occur. -/
def dropThrough : List Char → List Char → Option (List Char)
  | [], pat => if pat.isEmpty then some [] else none
  | a :: rest, pat =>
    if leadsWith (a :: rest) pat then some (List.drop pat.length (a :: rest))
    else dropThrough rest pat

/-- Unanchored match of a regex of the form seg1.*seg2.*...: the literal
segments occur in order.  The patterns of is_non_critical_error use no other
regex syntax, and the matched lines contain no newline, so this coincides
with regex::Regex::is_match on them. -/
def segsMatch : List (List Char) → List Char → Bool
  | [], _ => true
  | seg :: rest, s =>
    match dropThrough s seg with
    | some suffix => segsMatch rest suffix
    | none => false

def regexLiteMatch (segs : List String) (line : String) : Bool :=
  segsMatch (segs.map String.data) line.data

/-- One pattern test of is_non_critical_error: the code tests
error_line.contains(pattern) plus regex is_match; raw is the pattern text
and segs its literal segments split on the .* metasequence. -/
def patternHit (line : String) (raw : String) (segs : List String) : Bool :=
  strContains line raw || regexLiteMatch segs line

/-- is_non_critical_error from src/handlers/export.rs lines 728-744. -/
def is_non_critical_error (line : String) : Bool :=
  patternHit line "unrecognized configuration parameter"
    ["unrecognized configuration parameter"] ||
  patternHit line "role .* does not exist" ["role ", " does not exist"] ||
  patternHit line "already exists" ["already exists"] ||
  patternHit line "constraint .* already exists" ["constraint ", " already exists"] ||
  patternHit line "relation .* already exists" ["relation ", " already exists"] ||
  patternHit line "must be owner of extension" ["must be owner of extension"] ||
  patternHit line "must be superuser to create extension"
    ["must be superuser to create extension"]

/-- Stderr line classification used by run_import_job (export.rs line 455)
and run_export_job (line 306): the line contains "error:", "FATAL" or
"ERROR". -/
def isErrorClassified (line : String) : Bool :=
  strContains line "error:" || strContains line "FATAL" || strContains line "ERROR"

/-! ### Output-stream draining (console.rs lines 234-280, export.rs lines
286-313 and 439-470) -/

/-- MAX_OUTPUT_LINES from run_psql_query in src/handlers/console.rs. -/
def MAX_OUTPUT_LINES : Nat := 100

/-- The three lines appended by the console stdout drainer when the line
limit is reached (console.rs lines 248-250). -/
def consoleTruncLines : List String :=
  ["", "⚠️  Output truncated - reached 100 line limit",
   "💡 Use LIMIT clause in your query to see specific rows"]

/-- The console stdout drain loop (console.rs lines 237-254): append each
line, count it, and after the MAX_OUTPUT_LINES-th line append the
truncation notice lines and stop reading. -/
def consoleStdoutGo : List String → Nat → List String
  | [], _ => []
  | line :: rest, count =>
    let c := count + 1
    if MAX_OUTPUT_LINES ≤ c then line :: consoleTruncLines
    else line :: consoleStdoutGo rest c

def consoleStdoutDrain (out : List String) : List String := consoleStdoutGo out 0

/-- Stderr line formatting of the console drainer (console.rs lines 268-274). -/
def consoleStderrFormat (line : String) : String :=
  if strContains line "ERROR" || strContains line "FATAL" then "❌ " ++ line
  else if strContains line "WARNING" || strContains line "NOTICE" then "⚠️  " ++ line
  else line

/-- The console stderr drain loop (console.rs lines 259-280): format and
append each line, and stop silently after the MAX_OUTPUT_LINES-th line. -/
def consoleStderrGo : List String → Nat → List String
  | [], _ => []
  | line :: rest, count =>
    let c := count + 1
    if MAX_OUTPUT_LINES ≤ c then [consoleStderrFormat line]
    else consoleStderrFormat line :: consoleStderrGo rest c

def consoleStderrDrain (errLines : List String) : List String :=
  consoleStderrGo errLines 0

/-- The export stdout drain loop (export.rs lines 289-295): every line is
appended unchanged; there is no line counter and no limit. -/
def exportStdoutDrain (out : List String) : List String := out

/-- Stderr line formatting of the export drainer (export.rs lines 303-311). -/
def exportStderrFormat (line : String) : String :=
  if strContains line "error:" || strContains line "FATAL" || strContains line "ERROR"
  then "âŒ " ++ line
  else line

/-- The export stderr drain loop (export.rs lines 300-313): every line is
formatted and appended; no limit. -/
def exportStderrDrain (errLines : List String) : List String :=
  errLines.map exportStderrFormat

/-- Stderr line formatting of the import drainer (export.rs lines 454-466):
error-classified lines get a cross or warning prefix depending on
is_non_critical_error; the prefixes below are the exact bytes in the
source. -/
def importStderrFormat (line : String) : String :=
  if isErrorClassified line then
    if is_non_critical_error line then "âš ï¸  " ++ line else "âŒ " ++ line
  else line

/-- The error_lines vector collected by the import stderr drainer
(export.rs lines 453-469): exactly the error-classified lines. -/
def importErrorLines (stderrLines : List String) : List String :=
  stderrLines.filter (fun line => isErrorClassified line)

def importStderrDrain (stderrLines : List String) : List String :=
  stderrLines.map importStderrFormat

/-! ### Waiting for the subprocess and finalizing the job -/

/-- Outcome of child.wait(): a normal exit (success flag and Debug-formatted
exit code, as in ExitStatus) or an OS error from the wait itself. -/
inductive WaitOutcome where
  | exits (success : Bool) (code : Option Int)
  | ioError (msg : String)
deriving DecidableEq, Repr

/-- Abstract behavior of one subprocess run: the wait outcome, and the wall
time in seconds until it is available (none means the process never
exits). -/
structure ProcRun where
  outcome : WaitOutcome
  etaSecs : Option Nat
deriving DecidableEq, Repr

/-- What a runner does after the wait: the log lines it appends, and the
file_path / error arguments it passes to complete_job.  killIssued records
whether the runner calls kill on the child process (no runner in the source
ever does). -/
structure RunnerFinal where
  appended : List String
  file_path : Option String
  error : Option String
  killIssued : Bool
deriving DecidableEq, Repr

/-- The status complete_job will assign given the error argument of a
RunnerFinal. -/
def finalStatus (r : RunnerFinal) : JobStatus :=
  if r.error.isSome then JobStatus.Failed else JobStatus.Completed

/-- Debug formatting of status.code(), an Option of the exit code. -/
def fmtOptCode : Option Int → String
  | some c => "Some(" ++ toString c ++ ")"
  | none => "None"

/-- The timeout branch of run_psql_query (console.rs lines 307-313): a
timeout notice is appended and the job fails with a timeout error, but no
kill is issued to the child (the wait future is merely dropped). -/
def consoleTimeoutFinal : RunnerFinal :=
  { appended := ["", "⏱️  Query timeout (60 seconds) - process killed"],
    file_path := none,
    error := some "Query timeout (60 seconds)",
    killIssued := false }

/-- The wait-and-finalize phase of run_psql_query (console.rs lines
282-314): the wait is raced against a 60-second deadline
(tokio::time::timeout); an outcome arriving after the deadline, or never,
takes the timeout branch. -/
def run_psql_query_wait (p : ProcRun) : RunnerFinal :=
  match p.etaSecs with
  | none => consoleTimeoutFinal
  | some t =>
    if 60 < t then consoleTimeoutFinal
    else
      match p.outcome with
      | WaitOutcome.exits true _ =>
        { appended := ["", "✅ Query executed successfully!"],
          file_path := none, error := none, killIssued := false }
      | WaitOutcome.exits false code =>
        let e := "Query failed with exit code: " ++ fmtOptCode code
        { appended := ["", "❌ " ++ e],
          file_path := none, error := some e, killIssued := false }
      | WaitOutcome.ioError m =>
        let e := "Failed to wait for psql process: " ++ m
        { appended := ["❌ " ++ e],
          file_path := none, error := some e, killIssued := false }

/-- The wait-and-finalize phase of run_export_job (export.rs lines
315-337): child.wait() is awaited with no deadline, so a process that never
exits means the job is never finalized (result none); there is no timeout
branch and no kill. -/
def run_export_job_wait (p : ProcRun) (file_path log_file_path : String) :
    Option RunnerFinal :=
  match p.etaSecs with
  | none => none
  | some _ =>
    some
      (match p.outcome with
      | WaitOutcome.exits true _ =>
        { appended := ["", "âœ… Export completed successfully!",
                       "ðŸ“¦ Dump file: " ++ file_path,
                       "ðŸ“‹ Log file: " ++ log_file_path],
          file_path := some file_path, error := none, killIssued := false }
      | WaitOutcome.exits false code =>
        let e := "Export failed with exit code: " ++ fmtOptCode code
        { appended := ["", "âŒ " ++ e, "ðŸ“‹ Log file: " ++ log_file_path],
          file_path := none, error := some e, killIssued := false }
      | WaitOutcome.ioError m =>
        let e := "Failed to wait for process: " ++ m
        { appended := ["âŒ " ++ e, "ðŸ“‹ Log file: " ++ log_file_path],
          file_path := none, error := some e, killIssued := false })

/-- The warning line appended by run_import_job when all captured error
lines are non-critical (export.rs line 492, exact bytes of the source). -/
def importWarnNotice : String :=
  "âš ï¸  Import completed with warnings (non-critical errors ignored)"

/-- The wait-and-finalize phase of run_import_job (export.rs lines
472-510): no deadline on the wait; on a non-zero exit the job still
completes (with a warning line) if the captured error-classified stderr
lines are non-empty and all non-critical, and fails citing the exit code
otherwise. -/
def run_import_job_wait (p : ProcRun) (stderrLines : List String)
    (log_file_path : String) : Option RunnerFinal :=
  match p.etaSecs with
  | none => none
  | some _ =>
    some
      (match p.outcome with
      | WaitOutcome.exits true _ =>
        { appended := ["", "âœ… Import completed successfully!",
                       "ðŸ“‹ Log file: " ++ log_file_path],
          file_path := none, error := none, killIssued := false }
      | WaitOutcome.exits false code =>
        let errorLines := importErrorLines stderrLines
        if !errorLines.isEmpty && errorLines.all is_non_critical_error then
          { appended := ["", importWarnNotice, "ðŸ“‹ Log file: " ++ log_file_path],
            file_path := none, error := none, killIssued := false }
        else
          let e := "Import failed with exit code: " ++ fmtOptCode code
          { appended := ["", "âŒ " ++ e, "ðŸ“‹ Log file: " ++ log_file_path],
            file_path := none, error := some e, killIssued := false }
      | WaitOutcome.ioError m =>
        let e := "Failed to wait for process: " ++ m
        { appended := ["âŒ " ++ e],
          file_path := none, error := some e, killIssued := false })

/-! ### SSE log streaming (export.rs lines 859-903, console.rs 348-392) -/

def isTerminal : JobStatus → Bool
  | JobStatus.Running => false
  | JobStatus.Completed => true
  | JobStatus.Failed => true

/-- What one 100 ms poll tick of the stream produces: a batched data event,
a keepalive comment, end of stream, or nothing at all (the inner loop in
the source just sleeps again without yielding an event). -/
inductive TickResult where
  | dataEvent (payload : String) (newCursor : Nat)
  | keepalive (newCursor : Nat)
  | endStream
  | idle
deriving DecidableEq, Repr

/-- One poll tick of stream_logs (export.rs lines 863-899; the console
variant stream_console_logs lines 352-388 is identical): an unknown job id
ends the stream; new lines past the cursor are joined and emitted; with no
new lines, a keepalive is emitted only when the job is not terminal and the
cursor is divisible by 50; the stream ends when the job is terminal and the
cursor has caught up; otherwise the tick produces nothing. -/
def stream_logs_tick (jobs : JobsMap) (job_id : String) (cursor : Nat) :
    TickResult :=
  match alookup jobs job_id with
  | none => TickResult.endStream
  | some job =>
    let newLogs := job.logs.drop cursor
    let newIndex := cursor + newLogs.length
    let isDone := isTerminal job.status
    if newLogs.isEmpty = false then
      TickResult.dataEvent (String.intercalate "\n" newLogs) newIndex
    else if isDone = false ∧ cursor % 50 = 0 then
      TickResult.keepalive newIndex
    else if isDone = true ∧ newIndex ≤ cursor then
      TickResult.endStream
    else
      TickResult.idle

/-! ### Metadata cache (schemas.rs lines 87-143, mod.rs lines 41-48) -/

/-- SchemaRowDb from src/handlers/schemas.rs. -/
structure SchemaRowDb where
  name : String
  table_count : Int
  index_count : Int
  total_size : Int
deriving DecidableEq, Repr

/-- CacheEntry from src/handlers/mod.rs, instantiated at SchemaRowDb. -/
structure CacheEntry where
  data : List SchemaRowDb
  fetched_at : Nat
  fetching : Bool
deriving DecidableEq, Repr

/-- CACHE_TTL from src/handlers/mod.rs, in seconds. -/
def CACHE_TTL : Nat := 15 * 60

abbrev SchemasCache := List (Int × CacheEntry)

/-- The tail of the spawned refresh task in get_cached_schemas (schemas.rs
lines 129-139), run under the cache write lock: on a successful fetch the
data and fetched_at are replaced, on a failed fetch they are left
untouched; the fetching flag is reset to false in both cases. -/
def finishRefresh (cache : SchemasCache) (key : Int) (now : Nat)
    (result : Except String (List SchemaRowDb)) : SchemasCache :=
  match alookup cache key with
  | none => cache
  | some entry =>
    match result with
    | Except.ok rows =>
      aset cache key { entry with data := rows, fetched_at := now, fetching := false }
    | Except.error _ =>
      aset cache key { entry with fetching := false }

/-- The cache together with, per key, the number of refresh tasks that have
been scheduled and have not yet run their finishing section. -/
structure CacheSystem where
  cache : SchemasCache
  inflight : Int → Nat

def cacheInit : CacheSystem := ⟨[], fun _ => 0⟩

def bump (f : Int → Nat) (k : Int) : Int → Nat :=
  fun x => if x = k then f x + 1 else f x

def decr (f : Int → Nat) (k : Int) : Int → Nat :=
  fun x => if x = k then f x - 1 else f x

def entryFetching (cache : SchemasCache) (key : Int) : Bool :=
  match alookup cache key with
  | none => false
  | some e => e.fetching

/-- Small-step semantics of the cache.  Each step is one critical section
of get_cached_schemas (schemas.rs lines 93-124, the block holding the write
lock, together with the tokio::spawn it decides on) or the finishing
section of a previously scheduled refresh task.  Interleavings of any
number of concurrent callers are exactly the sequences of these steps. -/
inductive CacheStep : CacheSystem → CacheSystem → Prop where
  | touchMiss (s : CacheSystem) (key : Int) (now : Nat) :
      alookup s.cache key = none →
      CacheStep s ⟨ainsert s.cache key ⟨[], now, true⟩, bump s.inflight key⟩
  | touchStale (s : CacheSystem) (key : Int) (now : Nat) (e : CacheEntry) :
      alookup s.cache key = some e →
      CACHE_TTL < now - e.fetched_at →
      e.fetching = false →
      CacheStep s ⟨aset s.cache key { e with fetching := true }, bump s.inflight key⟩
  | touchHit (s : CacheSystem) (key : Int) (now : Nat) (e : CacheEntry) :
      alookup s.cache key = some e →
      (now - e.fetched_at ≤ CACHE_TTL ∨ e.fetching = true) →
      CacheStep s s
  | finishStep (s : CacheSystem) (key : Int) (now : Nat)
      (result : Except String (List SchemaRowDb)) :
      0 < s.inflight key →
      CacheStep s ⟨finishRefresh s.cache key now result, decr s.inflight key⟩

/-- States reachable from the empty cache by any interleaving of callers
and refresh tasks. -/
def CacheReachable (s : CacheSystem) : Prop :=
  Relation.ReflTransGen CacheStep cacheInit s

/-- The single-flight invariant: per key at most one scheduled refresh, and
none at all unless the fetching flag is set. -/
def SingleFlightInv (s : CacheSystem) : Prop :=
  ∀ k, s.inflight k ≤ 1 ∧ (entryFetching s.cache k = false → s.inflight k = 0)

theorem singleFlightInv_init : SingleFlightInv cacheInit := by
  intro k
  exact ⟨by simp [cacheInit], fun _ => rfl⟩

theorem singleFlightInv_step {s s' : CacheSystem}
    (hinv : SingleFlightInv s) (hstep : CacheStep s s') : SingleFlightInv s' := by
  cases hstep with
  | touchMiss key now hnone =>
    intro k
    by_cases hk : k = key
    · subst hk
      have h0 : s.inflight k = 0 := (hinv k).2 (by simp [entryFetching, hnone])
      constructor
      · simp [bump, h0]
      · intro hf
        simp [entryFetching, alookup_ainsert_self] at hf
    · have hne := alookup_ainsert_ne s.cache key k (⟨[], now, true⟩ : CacheEntry) hk
      constructor
      · simpa [bump, hk] using (hinv k).1
      · intro hf
        simp only [entryFetching, hne] at hf
        have := (hinv k).2 (by simp [entryFetching, hf])
        simpa [bump, hk] using this
  | touchStale key now e hsome hstale hfetch =>
    intro k
    by_cases hk : k = key
    · subst hk
      have h0 : s.inflight k = 0 := (hinv k).2 (by simp [entryFetching, hsome, hfetch])
      constructor
      · simp [bump, h0]
      · intro hf
        rw [entryFetching, alookup_aset_self, hsome] at hf
        simp at hf
    · have hne := alookup_aset_ne s.cache key k ({ e with fetching := true }) hk
      constructor
      · simpa [bump, hk] using (hinv k).1
      · intro hf
        rw [entryFetching, hne] at hf
        have := (hinv k).2 (by simpa [entryFetching] using hf)
        simpa [bump, hk] using this
  | touchHit key now e hsome hcond => exact hinv
  | finishStep key now result hpos =>
    intro k
    have hflag : entryFetching s.cache key = true := by
      by_contra hc
      have := (hinv key).2 (by simpa using Bool.eq_false_iff.mpr (by simpa using hc))
      omega
    obtain ⟨e, hsome, hef⟩ : ∃ e, alookup s.cache key = some e ∧ e.fetching = true := by
      unfold entryFetching at hflag
      cases h : alookup s.cache key with
      | none => rw [h] at hflag; simp at hflag
      | some e => rw [h] at hflag; exact ⟨e, rfl, hflag⟩
    by_cases hk : k = key
    · subst hk
      have h1 : s.inflight k ≤ 1 := (hinv k).1
      constructor
      · simp only [decr, if_pos]
        omega
      · intro _
        simp only [decr, if_pos]
        omega
    · have hne : alookup (finishRefresh s.cache key now result) k = alookup s.cache k := by
        unfold finishRefresh
        rw [hsome]
        cases result with
        | ok rows => exact alookup_aset_ne _ _ _ _ hk
        | error m => exact alookup_aset_ne _ _ _ _ hk
      constructor
      · simpa [decr, hk] using (hinv k).1
      · intro hf
        rw [entryFetching, hne] at hf
        have := (hinv k).2 (by simpa [entryFetching] using hf)
        simpa [decr, hk] using this

theorem singleFlightInv_reachable {s : CacheSystem} (h : CacheReachable s) :
    SingleFlightInv s := by
  induction h with
  | refl => exact singleFlightInv_init
  | tail _ hstep ih => exact singleFlightInv_step ih hstep

/-! ### Claims -/

/-- C1: For every metadata-cache key, at most one refresh task is in flight
at any instant.  The check-and-set of the fetching flag is one atomic step
of CacheStep (it happens under the cache write lock in get_cached_schemas),
so in every state reachable under arbitrary interleavings of callers and
refresh tasks, the number of scheduled-but-unfinished refreshes per key is
at most one. -/
theorem c1_single_flight_refresh (s : CacheSystem) (h : CacheReachable s)
    (k : Int) : s.inflight k ≤ 1 :=
  (singleFlightInv_reachable h k).1

/-- Witness for C1: the state after one cache-miss touch of key 7 is
reachable, and its in-flight count for key 7 is at most 1. -/
theorem c1_single_flight_refresh_witness :
    CacheReachable
      ⟨ainsert cacheInit.cache 7 ⟨[], 0, true⟩, bump cacheInit.inflight 7⟩ ∧
    (⟨ainsert cacheInit.cache 7 ⟨[], 0, true⟩,
       bump cacheInit.inflight 7⟩ : CacheSystem).inflight 7 ≤ 1 := by
  have hreach :
      CacheReachable
        ⟨ainsert cacheInit.cache 7 ⟨[], 0, true⟩, bump cacheInit.inflight 7⟩ :=
    Relation.ReflTransGen.single (CacheStep.touchMiss cacheInit 7 0 rfl)
  exact ⟨hreach, c1_single_flight_refresh _ hreach 7⟩

/-- C2 (amended): complete_job does not guard against repeated calls.  For
an existing job id it unconditionally overwrites status (Failed iff an
error argument is given, else Completed), completed_at, file_path and
error, whatever the current status is; the at-most-once transition holds
only because each runner calls it at most once per job. -/
theorem c2_complete_job_overwrites (jobs : JobsMap) (id : String)
    (job : ExportJob) (fp err : Option String) (now : Nat)
    (h : alookup jobs id = some job) :
    alookup (complete_job jobs id fp err now) id =
      some { job with
             status := if err.isSome then JobStatus.Failed else JobStatus.Completed,
             completed_at := some now,
             file_path := fp,
             error := err } := by
  unfold complete_job
  rw [h, alookup_aset_self, h]
  rfl

/-- Witness for C2 (amended): finalizing a freshly created Running job with
no error makes it Completed. -/
theorem c2_complete_job_overwrites_witness :
    alookup (runOps [RegOp.create "j" 0]) "j" = some (newJob "j" 0) ∧
    alookup (complete_job (runOps [RegOp.create "j" 0]) "j" none none 1) "j" =
      some { newJob "j" 0 with
             status := JobStatus.Completed, completed_at := some 1,
             file_path := none, error := none } := by
  have h : alookup (runOps [RegOp.create "j" 0]) "j" = some (newJob "j" 0) := rfl
  exact ⟨h, c2_complete_job_overwrites _ _ _ none none 1 h⟩

/-- Counterexample for C2 as stated: a second finalize call for the same
job id is not a no-op — after complete_job with no error (status Completed)
a further complete_job with an error flips the status to Failed and
overwrites the error field. -/
theorem c2_counterexample :
    ((alookup (complete_job (runOps [RegOp.create "j" 0]) "j" none none 1)
        "j").map (fun j => j.status) = some JobStatus.Completed) ∧
    ((alookup
        (complete_job
          (complete_job (runOps [RegOp.create "j" 0]) "j" none none 1)
          "j" none (some "boom") 2) "j").map (fun j => j.status) =
      some JobStatus.Failed) ∧
    ((alookup
        (complete_job
          (complete_job (runOps [RegOp.create "j" 0]) "j" none none 1)
          "j" none (some "boom") 2) "j").map (fun j => j.error) =
      some (some "boom")) := by
  exact ⟨rfl, rfl, rfl⟩

/-- C8: a failed refresh resets the fetching flag of the key to false but
leaves data and fetched_at unchanged (the entry is otherwise the same
record), and entries of other keys are untouched. -/
theorem c8_failed_refresh_keeps_snapshot (cache : SchemasCache) (key : Int)
    (now : Nat) (msg : String) (e : CacheEntry)
    (h : alookup cache key = some e) :
    alookup (finishRefresh cache key now (Except.error msg)) key =
      some { e with fetching := false } ∧
    ∀ k, k ≠ key →
      alookup (finishRefresh cache key now (Except.error msg)) k =
        alookup cache k := by
  unfold finishRefresh
  rw [h]
  constructor
  · rw [alookup_aset_self, h]
    rfl
  · intro k hk
    exact alookup_aset_ne _ _ _ _ hk

/-- Witness for C8: a failed refresh of key 3 leaves its stale data and
timestamp in place and only clears the fetching flag. -/
theorem c8_failed_refresh_keeps_snapshot_witness :
    alookup [(3, (⟨[⟨"s1", 1, 2, 3⟩], 5, true⟩ : CacheEntry))] 3 =
      some ⟨[⟨"s1", 1, 2, 3⟩], 5, true⟩ ∧
    alookup
      (finishRefresh [(3, ⟨[⟨"s1", 1, 2, 3⟩], 5, true⟩)] 3 99
        (Except.error "connection refused")) 3 =
      some ⟨[⟨"s1", 1, 2, 3⟩], 5, false⟩ := by
  have h : alookup [(3, (⟨[⟨"s1", 1, 2, 3⟩], 5, true⟩ : CacheEntry))] 3 =
      some ⟨[⟨"s1", 1, 2, 3⟩], 5, true⟩ := rfl
  exact ⟨h,
    (c8_failed_refresh_keeps_snapshot _ 3 99 "connection refused" _ h).1⟩

/-- C10: for a job id absent from the registry, append_log and complete_job
return the registry unchanged (the line or terminal state is silently
dropped), and get_job_status returns a 404 not-found error. -/
theorem c10_unknown_job_id (jobs : JobsMap) (id line : String)
    (fp err : Option String) (now : Nat) (h : alookup jobs id = none) :
    append_log jobs id line = jobs ∧
    complete_job jobs id fp err now = jobs ∧
    get_job_status jobs id = Except.error (404, "Job not found") := by
  unfold append_log complete_job get_job_status
  rw [h]
  exact ⟨rfl, rfl, rfl⟩

/-- The log-bound invariant of the registry: every stored job has at most
MAX_LOG_LINES log lines. -/
def LogsBounded (jobs : JobsMap) : Prop :=
  ∀ id job, alookup jobs id = some job → job.logs.length ≤ MAX_LOG_LINES

theorem logsBounded_applyOp {jobs : JobsMap} (h : LogsBounded jobs)
    (op : RegOp) : LogsBounded (applyOp jobs op) := by
  cases op with
  | create id now =>
    intro i job hi
    by_cases hk : i = id
    · subst hk
      rw [applyOp, alookup_ainsert_self] at hi
      cases hi
      simp [newJob, MAX_LOG_LINES]
    · rw [applyOp, alookup_ainsert_ne _ _ _ _ hk] at hi
      exact h i job hi
  | append id line =>
    intro i job hi
    rw [applyOp] at hi
    unfold append_log at hi
    cases hj : alookup jobs id with
    | none =>
      rw [hj] at hi
      exact h i job hi
    | some j0 =>
      rw [hj] at hi
      by_cases hk : i = id
      · subst hk
        rw [alookup_aset_self, hj] at hi
        cases hi
        have hb := h i j0 hj
        by_cases hlen : MAX_LOG_LINES < (j0.logs ++ [line]).length
        · simp only [if_pos hlen]
          simp only [List.length_drop, List.length_append, List.length_cons,
            List.length_nil] at hlen ⊢
          omega
        · simp only [if_neg hlen]
          simp only [List.length_append, List.length_cons, List.length_nil] at hlen ⊢
          omega
      · rw [alookup_aset_ne _ _ _ _ hk] at hi
        exact h i job hi
  | complete id fp err now =>
    intro i job hi
    rw [applyOp] at hi
    unfold complete_job at hi
    cases hj : alookup jobs id with
    | none =>
      rw [hj] at hi
      exact h i job hi
    | some j0 =>
      rw [hj] at hi
      by_cases hk : i = id
      · subst hk
        rw [alookup_aset_self, hj] at hi
        cases hi
        exact h i j0 hj
      · rw [alookup_aset_ne _ _ _ _ hk] at hi
        exact h i job hi

theorem logsBounded_foldl (ops : List RegOp) :
    ∀ jobs : JobsMap, LogsBounded jobs → LogsBounded (ops.foldl applyOp jobs) := by
  induction ops with
  | nil => intro jobs h; exact h
  | cons op rest ih =>
    intro jobs h
    exact ih _ (logsBounded_applyOp h op)

/-- C4: in every registry reachable by any sequence of create, append_log
and complete_job operations, every job holds at most MAX_LOG_LINES log
lines; and an append to a full buffer evicts exactly the oldest (front)
line, preserving the order of the remaining lines. -/
theorem c4_logs_bounded (ops : List RegOp) (jobs : JobsMap)
    (id line : String) (job job' : ExportJob) :
    (alookup (runOps ops) id = some job → job.logs.length ≤ MAX_LOG_LINES) ∧
    (alookup jobs id = some job' → job'.logs.length = MAX_LOG_LINES →
      alookup (append_log jobs id line) id =
        some { job' with logs := job'.logs.drop 1 ++ [line] }) := by
  constructor
  · intro h
    have h0 : LogsBounded ([] : JobsMap) := by
      intro i j hj
      simp [alookup] at hj
    exact logsBounded_foldl ops [] h0 id job h
  · intro h hlen
    unfold append_log
    rw [h, alookup_aset_self, h]
    have hmax : MAX_LOG_LINES = 10000 := rfl
    have hgt : MAX_LOG_LINES < (job'.logs ++ [line]).length := by
      simp only [List.length_append, List.length_cons, List.length_nil]
      omega
    have hdrop : (job'.logs ++ [line]).drop 1 = job'.logs.drop 1 ++ [line] :=
      List.drop_append_of_le_length (by omega)
    simp only [if_pos hgt, hdrop]
    rfl

/-- Witness for C4: a created job with one appended line is within the
bound, and appending to a job whose buffer is exactly full drops the front
line. -/
theorem c4_logs_bounded_witness :
    alookup (runOps [RegOp.create "a" 0, RegOp.append "a" "x"]) "a" =
      some ⟨"a", JobStatus.Running, ["x"], 0, none, none, none⟩ ∧
    (⟨"a", JobStatus.Running, ["x"], 0, none, none, none⟩ : ExportJob).logs.length
      ≤ MAX_LOG_LINES ∧
    (⟨"b", JobStatus.Running, List.replicate MAX_LOG_LINES "x", 0, none, none,
        none⟩ : ExportJob).logs.length = MAX_LOG_LINES ∧
    alookup
      (append_log
        [("b", ⟨"b", JobStatus.Running, List.replicate MAX_LOG_LINES "x", 0,
          none, none, none⟩)] "b" "y") "b" =
      some ⟨"b", JobStatus.Running,
        (List.replicate MAX_LOG_LINES "x").drop 1 ++ ["y"], 0, none, none,
        none⟩ := by
  have h1 : alookup (runOps [RegOp.create "a" 0, RegOp.append "a" "x"]) "a" =
      some ⟨"a", JobStatus.Running, ["x"], 0, none, none, none⟩ := rfl
  have h2 : alookup
      [("b", (⟨"b", JobStatus.Running, List.replicate MAX_LOG_LINES "x", 0,
        none, none, none⟩ : ExportJob))] "b" =
      some ⟨"b", JobStatus.Running, List.replicate MAX_LOG_LINES "x", 0, none,
        none, none⟩ := rfl
  have h3 : (⟨"b", JobStatus.Running, List.replicate MAX_LOG_LINES "x", 0,
      none, none, none⟩ : ExportJob).logs.length = MAX_LOG_LINES := by
    simp
  refine ⟨h1, (c4_logs_bounded [RegOp.create "a" 0, RegOp.append "a" "x"]
    [] "a" "x" ⟨"a", JobStatus.Running, ["x"], 0, none, none, none⟩
    (newJob "a" 0)).1 h1, h3, ?_⟩
  exact (c4_logs_bounded []
    [("b", ⟨"b", JobStatus.Running, List.replicate MAX_LOG_LINES "x", 0, none,
      none, none⟩)] "b" "y" (newJob "b" 0)
    ⟨"b", JobStatus.Running, List.replicate MAX_LOG_LINES "x", 0, none, none,
      none⟩).2 h2 h3

theorem consoleStdoutGo_spec (out : List String) :
    ∀ c : Nat, c < MAX_OUTPUT_LINES →
      consoleStdoutGo out c =
        if MAX_OUTPUT_LINES - c ≤ out.length then
          out.take (MAX_OUTPUT_LINES - c) ++ consoleTruncLines
        else out := by
  induction out with
  | nil =>
    intro c hc
    simp only [MAX_OUTPUT_LINES] at hc ⊢
    have hne : ¬(100 - c ≤ ([] : List String).length) := by
      simp only [List.length_nil]
      omega
    rw [if_neg hne]
    rfl
  | cons line rest ih =>
    intro c hc
    simp only [MAX_OUTPUT_LINES] at hc ⊢
    simp only [consoleStdoutGo, MAX_OUTPUT_LINES]
    by_cases hend : 100 ≤ c + 1
    · have hc1 : 100 - c = 1 := by omega
      have hcond : 100 - c ≤ (line :: rest).length := by
        simp only [List.length_cons, hc1]
        omega
      rw [if_pos hend, if_pos hcond, hc1]
      simp
    · have hlt : c + 1 < 100 := by omega
      have ihr := ih (c + 1) (by simpa [MAX_OUTPUT_LINES] using hlt)
      simp only [MAX_OUTPUT_LINES] at ihr
      rw [if_neg hend, ihr]
      have hsub : 100 - c = (100 - (c + 1)) + 1 := by omega
      by_cases h2 : 100 - (c + 1) ≤ rest.length
      · have hcond : 100 - c ≤ (line :: rest).length := by
          simp only [List.length_cons]
          omega
        rw [if_pos h2, if_pos hcond, hsub]
        simp
      · have hcond : ¬(100 - c ≤ (line :: rest).length) := by
          simp only [List.length_cons]
          omega
        rw [if_neg h2, if_neg hcond]

theorem consoleStderrGo_spec (out : List String) :
    ∀ c : Nat, c < MAX_OUTPUT_LINES →
      consoleStderrGo out c =
        (out.take (MAX_OUTPUT_LINES - c)).map consoleStderrFormat := by
  induction out with
  | nil =>
    intro c hc
    simp [consoleStderrGo]
  | cons line rest ih =>
    intro c hc
    simp only [MAX_OUTPUT_LINES] at hc ⊢
    simp only [consoleStderrGo, MAX_OUTPUT_LINES]
    by_cases hend : 100 ≤ c + 1
    · have hc1 : 100 - c = 1 := by omega
      rw [if_pos hend, hc1]
      simp
    · have hlt : c + 1 < 100 := by omega
      have ihr := ih (c + 1) (by simpa [MAX_OUTPUT_LINES] using hlt)
      simp only [MAX_OUTPUT_LINES] at ihr
      have hsub : 100 - c = (100 - (c + 1)) + 1 := by omega
      rw [if_neg hend, ihr, hsub]
      simp

/-- Counterexample for C9 as stated: under the console runner a subprocess
emitting 150 stdout lines leaves 103 captured lines (100 content plus a
blank line, the truncation notice and a hint line), not 101; under the
export runner all 150 lines are captured and no truncation notice is
appended at all. -/
theorem c9_counterexample :
    (consoleStdoutDrain (List.replicate 150 "row")).length = 103 ∧
    (exportStdoutDrain (List.replicate 150 "row")).length = 150 := by
  constructor
  · have h := consoleStdoutGo_spec (List.replicate 150 "row") 0
      (by simp [MAX_OUTPUT_LINES])
    simp only [MAX_OUTPUT_LINES, List.length_replicate, Nat.sub_zero] at h
    rw [consoleStdoutDrain, h]
    simp [consoleTruncLines]
  · simp [exportStdoutDrain]

/-- C9 (amended): only the console psql runner bounds its streams, at
MAX_OUTPUT_LINES = 100 lines each.  Its stdout drainer appends, after the
100th content line, a blank line, the truncation notice and a hint line
(three lines, not one) and stops reading; its stderr drainer stops reading
silently after 100 formatted lines; the export drain loops capture every
line with no limit. -/
theorem c9_output_limits (out : List String) :
    (MAX_OUTPUT_LINES ≤ out.length →
      consoleStdoutDrain out = out.take MAX_OUTPUT_LINES ++ consoleTruncLines) ∧
    (out.length < MAX_OUTPUT_LINES → consoleStdoutDrain out = out) ∧
    exportStdoutDrain out = out ∧
    consoleStderrDrain out =
      (out.take MAX_OUTPUT_LINES).map consoleStderrFormat := by
  have hstdout := consoleStdoutGo_spec out 0 (by simp [MAX_OUTPUT_LINES])
  have hstderr := consoleStderrGo_spec out 0 (by simp [MAX_OUTPUT_LINES])
  rw [Nat.sub_zero] at hstdout hstderr
  refine ⟨?_, ?_, rfl, ?_⟩
  · intro hge
    rw [consoleStdoutDrain, hstdout, if_pos hge]
  · intro hlt
    rw [consoleStdoutDrain, hstdout, if_neg (by omega)]
  · rw [consoleStderrDrain, hstderr]

/-- Witness for C9 (amended): two stdout lines with the 100-line limit pass
through unchanged under the console runner. -/
theorem c9_output_limits_witness :
    (["a", "b"] : List String).length < MAX_OUTPUT_LINES ∧
    consoleStdoutDrain ["a", "b"] = ["a", "b"] ∧
    exportStdoutDrain ["a", "b"] = ["a", "b"] := by
  have hlt : (["a", "b"] : List String).length < MAX_OUTPUT_LINES := by
    simp [MAX_OUTPUT_LINES]
  exact ⟨hlt, (c9_output_limits ["a", "b"]).2.1 hlt,
    (c9_output_limits ["a", "b"]).2.2.1⟩

/-- Counterexample for C5 as stated: a poll tick of a stream for a known,
non-terminal job with no new lines and a cursor not divisible by 50
produces no output at all — neither a data event, nor a keepalive, nor
termination — so an idle stream can go indefinitely without producing
anything. -/
theorem c5_counterexample :
    stream_logs_tick
      [("j", ⟨"j", JobStatus.Running,
        ["l1", "l2", "l3", "l4", "l5", "l6", "l7"], 0, none, none, none⟩)]
      "j" 7 = TickResult.idle := by
  rfl

/-- C5 (amended): on an idle tick (no new lines, job not terminal), a
keepalive is emitted when and only when the cursor is divisible by 50 — in
which case it is emitted on every such tick, i.e. every 100 ms, not every
~50 ticks; for any other cursor value the tick produces nothing. -/
theorem c5_keepalive_only_mod50 (jobs : JobsMap) (job_id : String)
    (cursor : Nat) (job : ExportJob)
    (h : alookup jobs job_id = some job)
    (hcaught : job.logs.length ≤ cursor)
    (hrun : isTerminal job.status = false) :
    stream_logs_tick jobs job_id cursor =
      if cursor % 50 = 0 then TickResult.keepalive cursor
      else TickResult.idle := by
  unfold stream_logs_tick
  rw [h]
  have hdrop : job.logs.drop cursor = [] := List.drop_eq_nil_iff.mpr hcaught
  by_cases h50 : cursor % 50 = 0
  · simp [hdrop, hrun, h50]
  · simp [hdrop, hrun, h50]

/-- Witness for C5 (amended): an idle tick at cursor 0 of a fresh running
job emits a keepalive. -/
theorem c5_keepalive_only_mod50_witness :
    alookup [("k", (⟨"k", JobStatus.Running, [], 0, none, none, none⟩ :
        ExportJob))] "k" =
      some ⟨"k", JobStatus.Running, [], 0, none, none, none⟩ ∧
    (⟨"k", JobStatus.Running, [], 0, none, none, none⟩ :
        ExportJob).logs.length ≤ 0 ∧
    isTerminal JobStatus.Running = false ∧
    stream_logs_tick
      [("k", ⟨"k", JobStatus.Running, [], 0, none, none, none⟩)] "k" 0 =
      TickResult.keepalive 0 := by
  have h : alookup [("k", (⟨"k", JobStatus.Running, [], 0, none, none,
      none⟩ : ExportJob))] "k" =
      some ⟨"k", JobStatus.Running, [], 0, none, none, none⟩ := rfl
  have hc := c5_keepalive_only_mod50 _ "k" 0 _ h (by simp) rfl
  exact ⟨h, by simp, rfl, by simpa using hc⟩

/-- C6: a poll tick ends the stream exactly when the job id is unknown, or
the job is terminal (Completed or Failed) and the cursor has caught up with
the buffer length; in particular no data event is produced then, and this
is the only termination path. -/
theorem c6_stream_termination (jobs : JobsMap) (job_id : String)
    (cursor : Nat) :
    stream_logs_tick jobs job_id cursor = TickResult.endStream ↔
      (alookup jobs job_id = none ∨
        ∃ job, alookup jobs job_id = some job ∧
          isTerminal job.status = true ∧ job.logs.length ≤ cursor) := by
  unfold stream_logs_tick
  cases h : alookup jobs job_id with
  | none => simp
  | some job =>
    simp only [Option.some.injEq]
    by_cases hemp : job.logs.drop cursor = []
    · have hle : job.logs.length ≤ cursor := List.drop_eq_nil_iff.mp hemp
      cases hdone : isTerminal job.status with
      | true => simp [hemp, hdone, hle]
      | false =>
        by_cases h50 : cursor % 50 = 0
        · simp [hemp, hdone, h50]
        · simp [hemp, hdone, h50]
    · have hgt : ¬job.logs.length ≤ cursor := by
        intro hle
        exact hemp (List.drop_eq_nil_iff.mpr hle)
      have hne : (job.logs.drop cursor).isEmpty = false := by
        cases hd : job.logs.drop cursor with
        | nil => exact absurd hd hemp
        | cons a l => rfl
      simp [hne, hgt]

/-- Counterexample for C3 as stated: there is no per-operation deadline for
export and import jobs — a subprocess that never exits leaves the job
unfinalized forever (no timeout notice, no Failed state) — and even the
console runner, whose wait does time out, never issues a kill to the
subprocess. -/
theorem c3_counterexample :
    run_export_job_wait ⟨WaitOutcome.exits true (some 0), none⟩
      "/tmp/out.dump" "/tmp/out.log" = none ∧
    run_import_job_wait ⟨WaitOutcome.exits false (some 1), none⟩
      ["ERROR: boom"] "/tmp/out.log" = none ∧
    (run_psql_query_wait ⟨WaitOutcome.exits true (some 0), none⟩).killIssued
      = false := by
  exact ⟨rfl, rfl, rfl⟩

/-- C3 (amended): only console query jobs wait under a deadline (60
seconds).  When the wait outcome is unavailable within it (or never), the
console runner appends a timeout notice and finalizes the job Failed with
an explicit timeout message, but issues no kill, so the subprocess is left
running; export and import jobs wait with no deadline at all — if the
subprocess never exits they are never finalized. -/
theorem c3_timeout_console_only (p : ProcRun) (fp lp : String)
    (stderrLines : List String) :
    (p.etaSecs = none →
      run_psql_query_wait p = consoleTimeoutFinal ∧
      run_export_job_wait p fp lp = none ∧
      run_import_job_wait p stderrLines lp = none) ∧
    (∀ t, p.etaSecs = some t → 60 < t →
      run_psql_query_wait p = consoleTimeoutFinal) ∧
    finalStatus consoleTimeoutFinal = JobStatus.Failed ∧
    consoleTimeoutFinal.error = some "Query timeout (60 seconds)" ∧
    (run_psql_query_wait p).killIssued = false := by
  refine ⟨?_, ?_, rfl, rfl, ?_⟩
  · intro h
    unfold run_psql_query_wait run_export_job_wait run_import_job_wait
    rw [h]
    exact ⟨rfl, rfl, rfl⟩
  · intro t ht hgt
    unfold run_psql_query_wait
    rw [ht]
    simp [hgt]
  · unfold run_psql_query_wait
    cases h : p.etaSecs with
    | none => rfl
    | some t =>
      by_cases h60 : 60 < t
      · simp [h60]
        rfl
      · simp [h60]
        cases p.outcome with
        | exits s code => cases s <;> rfl
        | ioError m => rfl

/-- Witness for C3 (amended): with a process that never exits, the console
runner takes the timeout branch and the export and import runners never
finalize. -/
theorem c3_timeout_console_only_witness :
    (⟨WaitOutcome.exits true (some 0), none⟩ : ProcRun).etaSecs = none ∧
    run_psql_query_wait ⟨WaitOutcome.exits true (some 0), none⟩ =
      consoleTimeoutFinal ∧
    run_export_job_wait ⟨WaitOutcome.exits true (some 0), none⟩
      "/tmp/a.dump" "/tmp/a.log" = none ∧
    run_import_job_wait ⟨WaitOutcome.exits true (some 0), none⟩ []
      "/tmp/a.log" = none := by
  have h := (c3_timeout_console_only ⟨WaitOutcome.exits true (some 0), none⟩
    "/tmp/a.dump" "/tmp/a.log" []).1 rfl
  exact ⟨rfl, h.1, h.2.1, h.2.2⟩

/-- C7: when the import subprocess exits non-zero, the job completes (error
none, warning line appended) exactly when the captured error-classified
stderr lines are non-empty and all of them satisfy is_non_critical_error;
otherwise it fails with an error citing the exit code. -/
theorem c7_import_non_critical (t : Nat) (code : Option Int)
    (stderrLines : List String) (lp : String) :
    (importErrorLines stderrLines ≠ [] →
      (∀ l ∈ importErrorLines stderrLines, is_non_critical_error l = true) →
      run_import_job_wait ⟨WaitOutcome.exits false code, some t⟩
          stderrLines lp =
        some { appended := ["", importWarnNotice, "ðŸ“‹ Log file: " ++ lp],
               file_path := none, error := none, killIssued := false }) ∧
    ((importErrorLines stderrLines = [] ∨
        ∃ l ∈ importErrorLines stderrLines, is_non_critical_error l = false) →
      run_import_job_wait ⟨WaitOutcome.exits false code, some t⟩
          stderrLines lp =
        some { appended :=
                 ["", "âŒ " ++ ("Import failed with exit code: " ++
                    fmtOptCode code),
                  "ðŸ“‹ Log file: " ++ lp],
               file_path := none,
               error := some ("Import failed with exit code: " ++
                 fmtOptCode code),
               killIssued := false }) := by
  constructor
  · intro hne hall
    unfold run_import_job_wait
    have hcond : (!(importErrorLines stderrLines).isEmpty &&
        (importErrorLines stderrLines).all is_non_critical_error) = true := by
      have h1 : (importErrorLines stderrLines).isEmpty = false := by
        cases h : importErrorLines stderrLines with
        | nil => exact absurd h hne
        | cons a l => rfl
      have h2 : (importErrorLines stderrLines).all is_non_critical_error
          = true := List.all_eq_true.mpr hall
      simp [h1, h2]
    simp only [hcond, if_pos]
  · intro hfail
    unfold run_import_job_wait
    have hcond : (!(importErrorLines stderrLines).isEmpty &&
        (importErrorLines stderrLines).all is_non_critical_error) = false := by
      cases hfail with
      | inl h => simp [h]
      | inr h =>
        obtain ⟨l, hl, hfalse⟩ := h
        have hallf : (importErrorLines stderrLines).all is_non_critical_error
            = false := by
          cases hb : (importErrorLines stderrLines).all is_non_critical_error with
          | false => rfl
          | true =>
            have := List.all_eq_true.mp hb l hl
            rw [hfalse] at this
            exact absurd this (by simp)
        simp [hallf]
    simp only [hcond]
    rfl

/-- Witness for C7: a restore whose only stderr line is a role-already-
exists error completes with the warning line rather than failing. -/
theorem c7_import_non_critical_witness :
    importErrorLines ["ERROR: role \"x\" already exists"] =
      ["ERROR: role \"x\" already exists"] ∧
    is_non_critical_error "ERROR: role \"x\" already exists" = true ∧
    run_import_job_wait ⟨WaitOutcome.exits false (some 1), some 2⟩
      ["ERROR: role \"x\" already exists"] "/tmp/i.log" =
      some { appended := ["", importWarnNotice,
               "ðŸ“‹ Log file: " ++ "/tmp/i.log"],
             file_path := none, error := none, killIssued := false } := by
  have h1 : importErrorLines ["ERROR: role \"x\" already exists"] =
      ["ERROR: role \"x\" already exists"] := by decide
  have h2 : is_non_critical_error "ERROR: role \"x\" already exists" = true := by
    decide
  refine ⟨h1, h2, ?_⟩
  refine (c7_import_non_critical 2 (some 1)
    ["ERROR: role \"x\" already exists"] "/tmp/i.log").1 ?_ ?_
  · rw [h1]
    exact List.cons_ne_nil _ _
  · intro l hl
    rw [h1] at hl
    have hls : l = "ERROR: role \"x\" already exists" := List.mem_singleton.mp hl
    rw [hls]
    exact h2

/-- Witness for C10: the mutating operations on an empty registry with an
unknown id leave it empty, and the status query errors. -/
theorem c10_unknown_job_id_witness :
    alookup ([] : JobsMap) "ghost" = none ∧
    append_log [] "ghost" "line" = [] ∧
    complete_job [] "ghost" none (some "e") 9 = [] ∧
    get_job_status [] "ghost" = Except.error (404, "Job not found") := by
  have h : alookup ([] : JobsMap) "ghost" = none := rfl
  obtain ⟨h1, h2, h3⟩ := c10_unknown_job_id [] "ghost" "line" none (some "e") 9 h
  exact ⟨h, h1, h2, h3⟩

end PgExplorer
